import Mathlib

/-!
# Verification of the terrabot guide parser and cache (src/bot.py)

This file gives a shallow embedding of the document-parsing and caching
subsystem of `src/bot.py`:

* `extract_item_name` embeds `_extract_item_name` (bot.py lines 90-100),
  including a direct model of the two regular expressions
  `ITEM_TEMPLATE_RE` and `WIKI_LINK_RE` under Python's leftmost `re.search`
  semantics.
* `parse_guide` embeds `parse_guide` (bot.py lines 103-142).  Python
  dictionaries are modelled as association lists preserving insertion
  order; the raw accesses `result[phase]`, `result[phase][terraria_class]`
  and `result[phase][terraria_class][category]` are modelled as fallible
  lookups in the `Option` monad, so a `none` outcome corresponds to a
  Python `KeyError`.
* `get_guide_data` embeds `get_guide_data` (bot.py lines 145-158), with the
  monotonic clock reading passed in as an integer `now` (seconds; the
  claims under verification only concern integer offsets), the global state
  `GuideCache`/`GuideFetchedAt` passed explicitly, and the network fetch
  modelled as a `FetchResult` parameter (a raised exception in
  `fetch_wikitext` becomes `FetchResult.failure`).

Python string whitespace is modelled as the ASCII whitespace characters;
the inputs relevant here are ASCII wiki markup.
-/

/-- The characters Python's `str.strip()` (and `\s` in the regexes) treats
as whitespace, restricted to ASCII. -/
def pyIsSpace (c : Char) : Bool :=
  c == ' ' || c == '\t' || c == '\n' || c == '\r' || c == '\x0b' || c == '\x0c'

/-- Strip characters satisfying `p` from both ends of a character list,
as Python's two-sided `str.strip`. -/
def stripBoth (p : Char → Bool) (l : List Char) : List Char :=
  ((l.dropWhile p).reverse.dropWhile p).reverse

/-- Python `s.strip()` (whitespace, both sides). -/
def pyStrip (s : String) : String :=
  String.mk (stripBoth pyIsSpace s.data)

/-- Python `s.strip("= ")`: strip `=` and space characters from both ends,
as in `line.strip("= ")` (bot.py lines 116 and 123). -/
def pyStripEqSpace (s : String) : String :=
  String.mk (stripBoth (fun c => c == '=' || c == ' ') s.data)

/-- Python `s.lstrip(";")`, as in `line.lstrip(";")` (bot.py line 131). -/
def pyLstripSemi (s : String) : String :=
  String.mk (s.data.dropWhile (fun c => c == ';'))

/-- Python's non-overlapping left-to-right `s.replace("&nbsp;", " ")`
(bot.py line 116). -/
def replaceNbsp : List Char → List Char
  | '&' :: 'n' :: 'b' :: 's' :: 'p' :: ';' :: rest => ' ' :: replaceNbsp rest
  | c :: rest => c :: replaceNbsp rest
  | [] => []

/-- `s.replace("&nbsp;", " ")` on strings. -/
def pyReplaceNbsp (s : String) : String :=
  String.mk (replaceNbsp s.data)

/-- Python `s.startswith(pre)`. -/
def pyStartswith (s pre : String) : Bool :=
  pre.data.isPrefixOf s.data

/-- The line-terminator characters recognised by Python `str.splitlines`
(`\r\n` is treated as a single terminator by `splitlinesGo`). -/
def pyIsLineBreak (c : Char) : Bool :=
  c == '\n' || c == '\r' || c == '\x0b' || c == '\x0c' || c == '\x1c' ||
  c == '\x1d' || c == '\x1e' || c == '\x85' || c == '\u2028' || c == '\u2029'

/-- Worker for `pySplitlines`: `cur` is the reversed current line.  A
terminator ends the current line; a terminator at the very end of the
string does not start a new (empty) line, matching Python. -/
def splitlinesGo (cur : List Char) : List Char → List (List Char)
  | [] => [cur.reverse]
  | '\r' :: '\n' :: rest =>
      cur.reverse :: (if rest.isEmpty then [] else splitlinesGo [] rest)
  | c :: rest =>
      if pyIsLineBreak c then
        cur.reverse :: (if rest.isEmpty then [] else splitlinesGo [] rest)
      else
        splitlinesGo (c :: cur) rest

/-- Python `s.splitlines()` (on character lists); `"".splitlines() = []`. -/
def pySplitlines (l : List Char) : List (List Char) :=
  if l.isEmpty then [] else splitlinesGo [] l

/-- Python `s.splitlines()` on strings, as in `wikitext.splitlines()`
(bot.py line 111). -/
def pySplitlinesS (s : String) : List String :=
  (pySplitlines s.data).map String.mk

/-!
## The two regular expressions (bot.py lines 90-91)

`ITEM_TEMPLATE_RE = re.compile(r"\{\{\s*[iI]tem\|([^|}]+)")`
`WIKI_LINK_RE = re.compile(r"\[\[([^|\]]+)[^\]]*\]\]")`

Both are used only through `.search`, i.e. the match attempted at the
leftmost possible start position wins.  The match-at-a-position semantics
is spelled out directly:

* For `ITEM_TEMPLATE_RE`, after `{{` the greedy `\s*` consumes the maximal
  run of whitespace — no backtracking is possible because `i`/`I` is not a
  whitespace character — then `[iI]tem|` must follow, and the group
  `([^|}]+)` greedily captures the maximal nonempty run of characters that
  are neither `|` nor `}`.
* For `WIKI_LINK_RE`, after `[[` the group `([^|\]]+)` greedily captures
  the maximal nonempty run of characters that are neither `|` nor `]`;
  `[^\]]*` then extends to the first `]`; the whole match succeeds exactly
  when that first `]` is immediately followed by a second `]` (shrinking
  either part in backtracking only moves the required `]]` onto a
  character that is not `]`, so no shorter split can succeed).
-/

/-- Match `ITEM_TEMPLATE_RE` anchored at the head of `l`, returning
group 1 on success. -/
def itemTemplateAt : List Char → Option (List Char)
  | '{' :: '{' :: rest =>
      match rest.dropWhile pyIsSpace with
      | c :: 't' :: 'e' :: 'm' :: '|' :: rest3 =>
          if c == 'i' || c == 'I' then
            let g := rest3.takeWhile (fun c => !(c == '|' || c == '}'))
            if g.isEmpty then none else some g
          else none
      | _ => none
  | _ => none

/-- Match `WIKI_LINK_RE` anchored at the head of `l`, returning group 1 on
success. -/
def wikiLinkAt (l : List Char) : Option (List Char) :=
  match l with
  | '[' :: '[' :: rest =>
      let g := rest.takeWhile (fun c => !(c == '|' || c == ']'))
      let y := (rest.drop g.length).takeWhile (fun c => !(c == ']'))
      match rest.drop (g.length + y.length) with
      | ']' :: ']' :: _ => if g.isEmpty then none else some g
      | _ => none
  | _ => none

/-- `re.search`: try the matcher at every start position, leftmost first. -/
def reSearch (f : List Char → Option (List Char)) : List Char → Option (List Char)
  | [] => f []
  | l@(_ :: rest) =>
      match f l with
      | some g => some g
      | none => reSearch f rest

/-- `ITEM_TEMPLATE_RE.search(line)`, returning `group(1)` (untrimmed). -/
def itemTemplateSearch (line : String) : Option String :=
  (reSearch itemTemplateAt line.data).map String.mk

/-- `WIKI_LINK_RE.search(line)`, returning `group(1)` (untrimmed). -/
def wikiLinkSearch (line : String) : Option String :=
  (reSearch wikiLinkAt line.data).map String.mk

/-- `_extract_item_name` (bot.py lines 94-100): the structured item
template is tried first, then the generic wiki link; the captured group is
returned `.strip()`ped. -/
def extract_item_name (line : String) : Option String :=
  match itemTemplateSearch line with
  | some g => some (pyStrip g)
  | none =>
      match wikiLinkSearch line with
      | some g => some (pyStrip g)
      | none => none

/-!
## Association lists standing for Python dicts

Python 3 dicts preserve insertion order; `setdefault` appends a fresh key
at the end and leaves an existing key (and its value) untouched.  A raw
subscript `d[k]` raises `KeyError` on a missing key, which the `Option`
valued `updateAtM` models as `none`.
-/

/-- The three-level guide index:
phase → class → category → ordered item names. -/
abbrev CatMap := List (String × List String)

abbrev ClassMap := List (String × CatMap)

abbrev Index := List (String × ClassMap)

/-- First-match association lookup (`d[k]` read, or `k in d`). -/
def lookupA {α : Type} : List (String × α) → String → Option α
  | [], _ => none
  | (k', v) :: rest, k => if k' = k then some v else lookupA rest k

/-- Python `d.setdefault(k, v)`'s effect on the dict: insert `(k, v)` at
the end when `k` is absent, otherwise leave the dict unchanged. -/
def setdefault {α : Type} (m : List (String × α)) (k : String) (v : α) :
    List (String × α) :=
  if (lookupA m k).isSome then m else m ++ [(k, v)]

/-- Update the value at key `k` with the fallible `f`; `none` when the key
is missing (Python `KeyError`) or when `f` itself fails. -/
def updateAtM {α : Type} : List (String × α) → String → (α → Option α) →
    Option (List (String × α))
  | [], _, _ => none
  | (k', v) :: rest, k, f =>
      if k' = k then (f v).map (fun v' => (k', v') :: rest)
      else (updateAtM rest k f).map (fun r => (k', v) :: r)

/-!
## The line scanner of `parse_guide` (bot.py lines 103-142)
-/

/-- The five shapes a stripped line can take, in the priority order of the
`if`/`continue` chain of `parse_guide`.  The payload is the extracted and
trimmed text of the heading/category. -/
inductive LineKind where
  | phaseH (text : String)
  | classH (text : String)
  | categoryH (text : String)
  | bullet
  | other
  deriving DecidableEq

/-- bot.py line 115: `line.startswith("==") and not line.startswith("===")`. -/
def isPhaseHeadingLine (line : String) : Bool :=
  pyStartswith line "==" && !pyStartswith line "==="

/-- The text of a phase heading, bot.py line 116:
`line.strip("= ").replace("&nbsp;", " ").strip()`. -/
def phaseText (line : String) : String :=
  pyStrip (pyReplaceNbsp (pyStripEqSpace line))

/-- The text of a class heading, bot.py line 123:
`line.strip("= ").strip()`. -/
def classText (line : String) : String :=
  pyStrip (pyStripEqSpace line)

/-- The text of a category line, bot.py line 131:
`line.lstrip(";").strip()`. -/
def categoryText (line : String) : String :=
  pyStrip (pyLstripSemi line)

/-- Classify one stripped line exactly in the order of the `if` chain of
`parse_guide` (lines 115, 122, 130, 137): a phase heading is tested before
a class heading, so `==...` that is not `===...` never reaches the class
branch, and `===...` fails the phase test. -/
def classifyLine (line : String) : LineKind :=
  if isPhaseHeadingLine line then .phaseH (phaseText line)
  else if pyStartswith line "===" then .classH (classText line)
  else if pyStartswith line ";" then .categoryH (categoryText line)
  else if pyStartswith line "*" then .bullet
  else .other

/-- Returns `true` exactly on `LineKind.phaseH`. -/
def kindIsPhase : LineKind → Bool
  | .phaseH _ => true
  | _ => false

/-- Returns `true` exactly on `LineKind.classH`. -/
def kindIsClass : LineKind → Bool
  | .classH _ => true
  | _ => false

/-- The scan state of `parse_guide`: the `result` dict under construction
and the three cursor variables `phase`, `terraria_class`, `category`
(bot.py lines 108-109).  A cursor holds `none` for Python `None` and
`some s` for the string `s` (possibly empty). -/
structure ParseSt where
  result : Index
  phase : Option String
  terraria_class : Option String
  category : Option String
  deriving DecidableEq

/-- Python truthiness of a `str | None` variable: `None` and `""` are
falsy, every other string is truthy (the guards `if phase`,
`if phase and terraria_class`, ... at bot.py lines 124, 132, 137). -/
def truthy : Option String → Bool
  | none => false
  | some s => !s.isEmpty

/-- The initial scan state: `result = {}`, all cursors `None`. -/
def initSt : ParseSt := ⟨[], none, none, none⟩

/-- One iteration of the `for raw_line in wikitext.splitlines()` loop of
`parse_guide` (bot.py lines 111-140).  `none` models a `KeyError` raised
by one of the raw subscripts `result[phase]`,
`result[phase][terraria_class]`, `result[phase][terraria_class][category]`. -/
def parseLine (st : ParseSt) (raw_line : String) : Option ParseSt :=
  match classifyLine (pyStrip raw_line) with
  | .phaseH ph =>
      -- lines 116-118: register the phase, reset class and category
      some ⟨setdefault st.result ph [], some ph, none, none⟩
  | .classH tc =>
      -- lines 123-126: `if phase: result[phase].setdefault(tc, {})`
      (if truthy st.phase then
        updateAtM st.result (st.phase.getD "")
          (fun cm => some (setdefault cm tc []))
      else some st.result).map (fun r => ⟨r, st.phase, some tc, none⟩)
  | .categoryH cat =>
      -- lines 131-133: `if phase and terraria_class: ...setdefault(cat, [])`
      (if truthy st.phase && truthy st.terraria_class then
        updateAtM st.result (st.phase.getD "")
          (fun cm => updateAtM cm (st.terraria_class.getD "")
            (fun m => some (setdefault m cat [])))
      else some st.result).map
        (fun r => ⟨r, st.phase, st.terraria_class, some cat⟩)
  | .bullet =>
      -- lines 137-140: append the extracted item name when all three
      -- cursors are truthy and the extracted name is truthy
      if truthy st.phase && truthy st.terraria_class && truthy st.category then
        match extract_item_name (pyStrip raw_line) with
        | some name =>
            if name.isEmpty then some st
            else
              (updateAtM st.result (st.phase.getD "")
                (fun cm => updateAtM cm (st.terraria_class.getD "")
                  (fun m => updateAtM m (st.category.getD "")
                    (fun items => some (items ++ [name]))))).map
                (fun r => ⟨r, st.phase, st.terraria_class, st.category⟩)
        | none => some st
      else some st
  | .other => some st

/-- Run the scan over a list of raw lines from a given state. -/
def parseLinesFrom (st : ParseSt) (ls : List String) : Option ParseSt :=
  ls.foldlM parseLine st

/-- Run the scan from the initial state and project out `result`. -/
def parseLinesE (ls : List String) : Option Index :=
  (parseLinesFrom initSt ls).map (fun st => st.result)

/-- `parse_guide` in the `Option` (KeyError) monad. -/
def parseGuideE (wikitext : String) : Option Index :=
  parseLinesE (pySplitlinesS wikitext)

/-- `parse_guide` (bot.py lines 103-142); `parse_guide_total` below shows
the `Option` is always `some`, so the default `[]` is never used. -/
def parse_guide (wikitext : String) : Index :=
  (parseGuideE wikitext).getD []

/-!
## The cache `get_guide_data` (bot.py lines 145-158)
-/

/-- `CACHE_TTL = 60 * 60` (bot.py line 23), a duration in seconds. -/
def CACHE_TTL : ℤ := 60 * 60

/-- The outcome of `await fetch_wikitext(sess)`: the raw wikitext, or a
raised transport error. -/
inductive FetchResult where
  | success (text : String)
  | failure
  deriving DecidableEq

/-- The module-level cache state: `GuideCache` (initially `{}`) and
`GuideFetchedAt` (initially `None`), bot.py lines 45-46. -/
structure BotState where
  GuideCache : Index
  GuideFetchedAt : Option ℤ
  deriving DecidableEq

/-- The initial global state. -/
def initBot : BotState := ⟨[], none⟩

/-- bot.py line 150: `GuideCache and GuideFetchedAt and now - GuideFetchedAt
< CACHE_TTL`.  `GuideCache` is truthy iff nonempty; the float
`GuideFetchedAt` is truthy iff it is not `None` and not `0.0`. -/
def cacheFresh (st : BotState) (now : ℤ) : Bool :=
  !st.GuideCache.isEmpty &&
    (match st.GuideFetchedAt with
     | none => false
     | some t => decide (t ≠ 0) && decide (now - t < CACHE_TTL))

/-- `get_guide_data` (bot.py lines 145-158).  Returns the value returned
to the caller (`Except.error ()` for a propagated fetch exception), the
global state after the call, and whether a fetch was attempted. -/
def get_guide_data (st : BotState) (now : ℤ) (fetch : FetchResult) :
    Except Unit Index × BotState × Bool :=
  if cacheFresh st now then
    (Except.ok st.GuideCache, st, false)
  else
    match fetch with
    | .failure => (Except.error (), st, true)
    | .success text =>
        let idx := parse_guide text
        (Except.ok idx, ⟨idx, some now⟩, true)

/-- Chained lookup `result[p][c][k]`, as an `Option`. -/
def lookup3 (r : Index) (p c k : String) : Option (List String) :=
  (lookupA r p).bind (fun cm => (lookupA cm c).bind (fun m => lookupA m k))

/-!
## The no-KeyError invariant of the scan state

`ScanInv` says that the cursor path that the guards of `parse_guide` can let
through is present in `result`, so the raw subscripts never raise.
-/

def ScanInv (st : ParseSt) : Prop :=
  truthy st.phase = true →
    ∃ cm, lookupA st.result (st.phase.getD "") = some cm ∧
      (truthy st.terraria_class = true →
        ∃ m, lookupA cm (st.terraria_class.getD "") = some m ∧
          (truthy st.category = true →
            ∃ items, lookupA m (st.category.getD "") = some items))


/-!
## Association-list lemmas
-/

theorem lookupA_append_of_some {α : Type} {m₁ m₂ : List (String × α)} {k : String}
    {v : α} (h : lookupA m₁ k = some v) : lookupA (m₁ ++ m₂) k = some v := by
  induction m₁ with
  | nil => simp [lookupA] at h
  | cons hd tl ih =>
    obtain ⟨k₀, v₀⟩ := hd
    by_cases hk : k₀ = k
    · simp [lookupA, hk] at h ⊢
      exact h
    · simp [lookupA, hk] at h ⊢
      exact ih h

theorem lookupA_append_of_none {α : Type} {m₁ m₂ : List (String × α)} {k : String}
    (h : lookupA m₁ k = none) : lookupA (m₁ ++ m₂) k = lookupA m₂ k := by
  induction m₁ with
  | nil => simp
  | cons hd tl ih =>
    obtain ⟨k₀, v₀⟩ := hd
    by_cases hk : k₀ = k
    · simp [lookupA, hk] at h
    · simp [lookupA, hk] at h ⊢
      exact ih h

theorem lookupA_setdefault_isSome {α : Type} (m : List (String × α)) (k : String)
    (v : α) : (lookupA (setdefault m k v) k).isSome = true := by
  unfold setdefault
  split
  · assumption
  · rename_i h
    have hnone : lookupA m k = none := by
      cases hl : lookupA m k with
      | none => rfl
      | some w => rw [hl] at h; simp at h
    rw [lookupA_append_of_none hnone]
    simp [lookupA]

theorem updateAtM_spec {α : Type} {m : List (String × α)} {k : String} {v : α}
    {f : α → Option α} {v' : α} (hl : lookupA m k = some v) (hf : f v = some v') :
    ∃ m', updateAtM m k f = some m' ∧ lookupA m' k = some v' ∧
      ∀ k', k' ≠ k → lookupA m' k' = lookupA m k' := by
  induction m with
  | nil => simp [lookupA] at hl
  | cons hd tl ih =>
    obtain ⟨k₀, v₀⟩ := hd
    by_cases hk : k₀ = k
    · subst hk
      simp [lookupA] at hl
      subst hl
      refine ⟨(k₀, v') :: tl, ?_, ?_, ?_⟩
      · simp [updateAtM, hf]
      · simp [lookupA]
      · intro k' hne
        have : k₀ ≠ k' := fun hc => hne (hc ▸ rfl)
        simp [lookupA, this]
    · simp [lookupA, hk] at hl
      obtain ⟨m', h1, h2, h3⟩ := ih hl
      refine ⟨(k₀, v₀) :: m', ?_, ?_, ?_⟩
      · simp [updateAtM, hk, h1]
      · simp [lookupA, hk, h2]
      · intro k' hne
        by_cases hk' : k₀ = k'
        · simp [lookupA, hk']
        · simp [lookupA, hk', h3 k' hne]

theorem scanInv_initSt : ScanInv initSt := by
  intro h
  simp [initSt, truthy] at h

theorem parseLine_total (st : ParseSt) (raw : String) (h : ScanInv st) :
    ∃ st', parseLine st raw = some st' ∧ ScanInv st' := by
  cases hcl : classifyLine (pyStrip raw) with
  | phaseH ph =>
    refine ⟨⟨setdefault st.result ph [], some ph, none, none⟩, ?_, ?_⟩
    · simp [parseLine, hcl]
    · intro _
      obtain ⟨cm, hcm⟩ :=
        Option.isSome_iff_exists.mp (lookupA_setdefault_isSome st.result ph [])
      exact ⟨cm, hcm, by intro hc; simp [truthy] at hc⟩
  | classH tc =>
    by_cases hp : truthy st.phase = true
    · obtain ⟨cm, hcm, _⟩ := h hp
      obtain ⟨r, hr, hrk, _⟩ := updateAtM_spec (f := fun cm => some (setdefault cm tc []))
        hcm rfl
      refine ⟨⟨r, st.phase, some tc, none⟩, ?_, ?_⟩
      · simp [parseLine, hcl, hp, hr]
      · intro _
        refine ⟨setdefault cm tc [], hrk, ?_⟩
        intro htc
        obtain ⟨m, hm⟩ := Option.isSome_iff_exists.mp
          (lookupA_setdefault_isSome cm ((some tc).getD "") [])
        exact ⟨m, hm, by intro hc; simp [truthy] at hc⟩
    · have hp' : truthy st.phase = false := by
        cases hb : truthy st.phase with
        | false => rfl
        | true => exact absurd hb hp
      refine ⟨⟨st.result, st.phase, some tc, none⟩, ?_, ?_⟩
      · simp [parseLine, hcl, hp']
      · intro hc
        simp only at hc
        rw [hp'] at hc
        exact absurd hc (by simp)
  | categoryH cat =>
    by_cases hg : (truthy st.phase && truthy st.terraria_class) = true
    · have hp : truthy st.phase = true := by
        rcases Bool.and_eq_true .. |>.mp hg with ⟨h1, _⟩; exact h1
      have htc : truthy st.terraria_class = true := by
        rcases Bool.and_eq_true .. |>.mp hg with ⟨_, h2⟩; exact h2
      obtain ⟨cm, hcm, hinner⟩ := h hp
      obtain ⟨m, hm, _⟩ := hinner htc
      obtain ⟨cm', hcm', hcmk', _⟩ :=
        updateAtM_spec (f := fun m => some (setdefault m cat [])) hm rfl
      obtain ⟨r, hr, hrk, _⟩ :=
        updateAtM_spec
          (f := fun c => updateAtM c (st.terraria_class.getD "")
            (fun m => some (setdefault m cat []))) hcm hcm'
      refine ⟨⟨r, st.phase, st.terraria_class, some cat⟩, ?_, ?_⟩
      · simp [parseLine, hcl, hg, hr]
      · intro _
        refine ⟨_, hrk, ?_⟩
        intro _
        refine ⟨setdefault m cat [], hcmk', ?_⟩
        intro _
        exact Option.isSome_iff_exists.mp
          (lookupA_setdefault_isSome m ((some cat).getD "") [])
    · have hg' : (truthy st.phase && truthy st.terraria_class) = false := by
        cases hb : (truthy st.phase && truthy st.terraria_class) with
        | false => rfl
        | true => exact absurd hb hg
      refine ⟨⟨st.result, st.phase, st.terraria_class, some cat⟩, ?_, ?_⟩
      · simp [parseLine, hcl, hg']
      · intro hp
        obtain ⟨cm, hcm, hinner⟩ := h hp
        refine ⟨cm, hcm, ?_⟩
        intro htc
        rw [hp, htc] at hg'
        simp at hg'
  | bullet =>
    by_cases hg : (truthy st.phase && truthy st.terraria_class && truthy st.category) = true
    · obtain ⟨⟨hp, htc⟩, hcat⟩ :
          (truthy st.phase = true ∧ truthy st.terraria_class = true) ∧
            truthy st.category = true := by
        rcases Bool.and_eq_true .. |>.mp hg with ⟨h12, h3⟩
        rcases Bool.and_eq_true .. |>.mp h12 with ⟨h1, h2⟩
        exact ⟨⟨h1, h2⟩, h3⟩
      obtain ⟨cm, hcm, hinner⟩ := h hp
      obtain ⟨m, hm, hinner2⟩ := hinner htc
      obtain ⟨items, hitems⟩ := hinner2 hcat
      cases hex : extract_item_name (pyStrip raw) with
      | none => exact ⟨st, by simp [parseLine, hcl, hg, hex], h⟩
      | some name =>
        by_cases hne : name.isEmpty = true
        · exact ⟨st, by simp [parseLine, hcl, hg, hex, hne], h⟩
        · have hne' : name.isEmpty = false := by
            cases hb : name.isEmpty with
            | false => rfl
            | true => exact absurd hb hne
          obtain ⟨m', hm', hmk', _⟩ :=
            updateAtM_spec (f := fun items => some (items ++ [name])) hitems rfl
          obtain ⟨cm', hcm', hcmk', _⟩ :=
            updateAtM_spec
              (f := fun c => updateAtM c (st.category.getD "")
                (fun items => some (items ++ [name]))) hm hm'
          obtain ⟨r, hr, hrk, _⟩ :=
            updateAtM_spec
              (f := fun c => updateAtM c (st.terraria_class.getD "")
                (fun c2 => updateAtM c2 (st.category.getD "")
                  (fun items => some (items ++ [name])))) hcm hcm'
          refine ⟨⟨r, st.phase, st.terraria_class, st.category⟩, ?_, ?_⟩
          · simp [parseLine, hcl, hg, hex, hne', hr]
          · intro _
            refine ⟨cm', hrk, ?_⟩
            intro _
            refine ⟨m', hcmk', ?_⟩
            intro _
            exact ⟨items ++ [name], hmk'⟩
    · have hg' : (truthy st.phase && truthy st.terraria_class && truthy st.category)
          = false := by
        cases hb : (truthy st.phase && truthy st.terraria_class && truthy st.category) with
        | false => rfl
        | true => exact absurd hb hg
      exact ⟨st, by simp [parseLine, hcl, hg'], h⟩
  | other => exact ⟨st, by simp [parseLine, hcl], h⟩

theorem parseLinesFrom_total (ls : List String) (st : ParseSt) (h : ScanInv st) :
    ∃ st', parseLinesFrom st ls = some st' ∧ ScanInv st' := by
  induction ls generalizing st with
  | nil => exact ⟨st, rfl, h⟩
  | cons l ls ih =>
    obtain ⟨st₁, h1, h2⟩ := parseLine_total st l h
    obtain ⟨st', h3, h4⟩ := ih st₁ h2
    refine ⟨st', ?_, h4⟩
    simp [parseLinesFrom, List.foldlM] at h3 ⊢
    rw [h1]
    exact h3

/-!
## Claim theorems
-/

/-- Claim C1: for every input string (empty, binary garbage, single
characters included), the scan of `parse_guide` terminates and never
raises: the `Option`-monad run `parseGuideE`, in which every raw
dictionary subscript is a fallible lookup, always returns `some`, and its
value is the (structurally valid, possibly empty) index `parse_guide`
returns. -/
theorem parse_guide_total (wikitext : String) :
    parseGuideE wikitext = some (parse_guide wikitext) := by
  obtain ⟨st', h1, _⟩ :=
    parseLinesFrom_total (pySplitlinesS wikitext) initSt scanInv_initSt
  simp [parseGuideE, parseLinesE, parse_guide, h1]

/-- Claim C9: in the Empty state (no cached index, no timestamp), a fetch
failure propagates to the caller as an error, a fetch was attempted, and
the global state is unchanged (still Empty, no partial entry stored). -/
theorem empty_state_fetch_failure (now : ℤ) :
    get_guide_data initBot now .failure = (Except.error (), initBot, true) := rfl

/-- Claim C2, counterexample: with a Populated state holding a stale entry
(timestamp 10, call at 3610, TTL 3600) and a failing fetch,
`get_guide_data` does not return the previous index — it propagates the
failure.  There is no try/except around the fetch in bot.py lines 153-154. -/
theorem stale_fetch_failure_cex :
    (get_guide_data ⟨[("Pre-Hardmode", [])], some 10⟩ 3610 .failure).1
        = Except.error () ∧
    (get_guide_data ⟨[("Pre-Hardmode", [])], some 10⟩ 3610 .failure).1
        ≠ Except.ok [("Pre-Hardmode", [])] :=
  ⟨rfl, fun h => Except.noConfusion (rfl.trans h)⟩

/-- Claim C2, amended: if the entry is stale (`now - t ≥ CACHE_TTL`) and
the fetch fails, `get_guide_data` propagates the failure to the caller;
the stale entry and its timestamp remain stored unchanged (they are not
returned to the caller). -/
theorem stale_fetch_failure_propagates (st : BotState) (now t : ℤ)
    (ht : st.GuideFetchedAt = some t) (hstale : CACHE_TTL ≤ now - t) :
    get_guide_data st now .failure = (Except.error (), st, true) := by
  have hfresh : cacheFresh st now = false := by
    unfold cacheFresh
    rw [ht]
    simp [decide_eq_false (not_lt.mpr hstale)]
  simp [get_guide_data, hfresh]

theorem stale_fetch_failure_propagates_witness :
    ((⟨[("Pre-Hardmode", [])], some 10⟩ : BotState).GuideFetchedAt = some 10) ∧
    CACHE_TTL ≤ 3610 - 10 ∧
    get_guide_data ⟨[("Pre-Hardmode", [])], some 10⟩ 3610 .failure
      = (Except.error (), ⟨[("Pre-Hardmode", [])], some 10⟩, true) :=
  ⟨rfl, by decide,
    stale_fetch_failure_propagates ⟨[("Pre-Hardmode", [])], some 10⟩ 3610 10
      rfl (by decide)⟩

/-- Claim C3, counterexample: after a successful refresh at time 100 whose
parsed index is empty (`parse_guide "" = []`), a call at
`timestamp + 3599 = 3699` does trigger a fetch, because the cache-hit test
`if GuideCache and ...` (bot.py line 150) requires the cached dict to be
truthy, i.e. non-empty. -/
theorem cache_freshness_cex :
    (get_guide_data initBot 100 (.success "")).2.1
        = (⟨[], some 100⟩ : BotState) ∧
    (get_guide_data (⟨[], some 100⟩ : BotState) 3699 (.success "x")).2.2 = true :=
  ⟨rfl, rfl⟩

/-- Claim C3, amended: with TTL = 3600, provided the last successful
refresh stored a non-empty index and a nonzero timestamp `t` (both are
required for the Python truthiness tests on line 150), a call at `t + 3599`
performs no fetch and returns the cached index directly, and a call at
`t + 3601` attempts exactly one new fetch. -/
theorem cache_freshness_boundary (st : BotState) (t : ℤ) (f f' : FetchResult)
    (hne : st.GuideCache ≠ []) (ht : st.GuideFetchedAt = some t) (ht0 : t ≠ 0) :
    get_guide_data st (t + 3599) f = (Except.ok st.GuideCache, st, false) ∧
    (get_guide_data st (t + 3601) f').2.2 = true := by
  constructor
  · have hfresh : cacheFresh st (t + 3599) = true := by
      unfold cacheFresh
      rw [ht]
      have h1 : st.GuideCache.isEmpty = false := by
        cases hb : st.GuideCache with
        | nil => exact absurd hb hne
        | cons a l => rfl
      simp [h1, ht0]
      unfold CACHE_TTL
      omega
    simp [get_guide_data, hfresh]
  · have hfresh : cacheFresh st (t + 3601) = false := by
      unfold cacheFresh
      rw [ht]
      simp
      intro _ _
      unfold CACHE_TTL
      omega
    cases f' <;> simp [get_guide_data, hfresh]

theorem cache_freshness_boundary_witness :
    ((⟨[("A", [])], some 10⟩ : BotState).GuideCache ≠ []) ∧
    ((⟨[("A", [])], some 10⟩ : BotState).GuideFetchedAt = some 10) ∧
    ((10 : ℤ) ≠ 0) ∧
    (get_guide_data ⟨[("A", [])], some 10⟩ (10 + 3599) (.success "x")
      = (Except.ok [("A", [])], ⟨[("A", [])], some 10⟩, false) ∧
    (get_guide_data ⟨[("A", [])], some 10⟩ (10 + 3601) .failure).2.2 = true) :=
  ⟨by decide, rfl, by decide,
    cache_freshness_boundary ⟨[("A", [])], some 10⟩ 10 (.success "x") .failure
      (by decide) rfl (by decide)⟩

/-- Claim C10: if a refresh actually ran (`.2.2 = true`) and stored an
empty parsed index, then every subsequent call triggers a new fetch,
whatever the elapsed time, because the cache-hit test requires a non-empty
cached dict. -/
theorem empty_index_always_refetches (st0 : BotState) (t0 : ℤ) (text : String)
    (hparse : parse_guide text = [])
    (href : (get_guide_data st0 t0 (.success text)).2.2 = true)
    (now : ℤ) (f : FetchResult) :
    (get_guide_data ((get_guide_data st0 t0 (.success text)).2.1) now f).2.2
      = true := by
  have hfresh : cacheFresh st0 t0 = false := by
    cases hb : cacheFresh st0 t0 with
    | false => rfl
    | true => simp [get_guide_data, hb] at href
  have hstate : (get_guide_data st0 t0 (.success text)).2.1
      = ⟨parse_guide text, some t0⟩ := by
    simp [get_guide_data, hfresh]
  rw [hstate, hparse]
  have hf2 : cacheFresh ⟨[], some t0⟩ now = false := rfl
  cases f <;> simp [get_guide_data, hf2]

theorem empty_index_always_refetches_witness :
    parse_guide "" = [] ∧
    (get_guide_data initBot 5 (.success "")).2.2 = true ∧
    (get_guide_data ((get_guide_data initBot 5 (.success "")).2.1) 6
        (.success "x")).2.2 = true :=
  ⟨rfl, rfl, empty_index_always_refetches initBot 5 "" rfl rfl 6 (.success "x")⟩

/-- Claim C4, counterexample: the input consisting of the single line `==`
has empty extracted heading text, yet `parse_guide` registers the empty
string as a top-level key — registration is not skipped (bot.py line 117
runs `result.setdefault(phase, {})` unconditionally). -/
theorem empty_heading_cex : parse_guide "==" = [("", [])] := rfl

/-- Claim C4, amended: a phase-heading line whose extracted text is empty
after marker removal and trimming (such as a line consisting only of `==`)
is not skipped: it registers the empty string as a key in the index and
sets the empty string as the current phase (which, being falsy, blocks
materialisation of subsequent class/category/item lines). -/
theorem empty_heading_registers (st : ParseSt) :
    parseLine st "==" = some ⟨setdefault st.result "" [], some "", none, none⟩ := rfl

/-- Claim C6: a (stripped) line beginning with the depth-3 marker `===` is
never classified as a phase heading, and a (stripped) line beginning with
`==` but not `===` is never classified as a class heading. -/
theorem heading_depth_precedence (l₁ l₂ : String)
    (h₁ : pyStartswith (pyStrip l₁) "===" = true)
    (h₂ : pyStartswith (pyStrip l₂) "==" = true)
    (h₂' : pyStartswith (pyStrip l₂) "===" = false) :
    kindIsPhase (classifyLine (pyStrip l₁)) = false ∧
    kindIsClass (classifyLine (pyStrip l₂)) = false := by
  constructor
  · simp [classifyLine, isPhaseHeadingLine, h₁, kindIsPhase]
  · simp [classifyLine, isPhaseHeadingLine, h₂, h₂', kindIsClass]

theorem heading_depth_precedence_witness :
    pyStartswith (pyStrip "  === Ranged ===  ") "===" = true ∧
    pyStartswith (pyStrip " == Pre-Mech Bosses == ") "==" = true ∧
    pyStartswith (pyStrip " == Pre-Mech Bosses == ") "===" = false ∧
    (kindIsPhase (classifyLine (pyStrip "  === Ranged ===  ")) = false ∧
      kindIsClass (classifyLine (pyStrip " == Pre-Mech Bosses == ")) = false) :=
  ⟨rfl, rfl, rfl,
    heading_depth_precedence "  === Ranged ===  " " == Pre-Mech Bosses == "
      rfl rfl rfl⟩

/-- Claim C7: on a bullet line matched by both the structured
item-reference pattern (`ITEM_TEMPLATE_RE`) and the generic
cross-reference pattern (`WIKI_LINK_RE`), the name recorded by
`_extract_item_name` is the structured pattern's capture, trimmed. -/
theorem item_extraction_priority (line g g' : String)
    (h1 : itemTemplateSearch line = some g) (_h2 : wikiLinkSearch line = some g') :
    extract_item_name line = some (pyStrip g) := by
  unfold extract_item_name
  rw [h1]

theorem item_extraction_priority_witness :
    itemTemplateSearch "* \x7b\x7bitem| Sword \x7d\x7d or [[Bow]]" = some " Sword " ∧
    wikiLinkSearch "* \x7b\x7bitem| Sword \x7d\x7d or [[Bow]]" = some "Bow" ∧
    extract_item_name "* \x7b\x7bitem| Sword \x7d\x7d or [[Bow]]"
      = some (pyStrip " Sword ") :=
  ⟨rfl, rfl,
    item_extraction_priority "* \x7b\x7bitem| Sword \x7d\x7d or [[Bow]]"
      " Sword " "Bow" rfl rfl⟩

/-!
## Orphan suppression (claim C5)
-/

theorem parseLine_no_phase (tcv catv : Option String) (l : String)
    (hl : kindIsPhase (classifyLine (pyStrip l)) = false) :
    ∃ tc' cat', parseLine ⟨[], none, tcv, catv⟩ l = some ⟨[], none, tc', cat'⟩ := by
  cases hcl : classifyLine (pyStrip l) with
  | phaseH ph => rw [hcl] at hl; simp [kindIsPhase] at hl
  | classH tc =>
    exact ⟨some tc, none, by simp [parseLine, hcl, truthy]⟩
  | categoryH cat =>
    exact ⟨tcv, some cat, by simp [parseLine, hcl, truthy]⟩
  | bullet =>
    exact ⟨tcv, catv, by simp [parseLine, hcl, truthy]⟩
  | other =>
    exact ⟨tcv, catv, by simp [parseLine, hcl]⟩

theorem parseLinesFrom_no_phase (pre : List String)
    (hpre : ∀ l ∈ pre, kindIsPhase (classifyLine (pyStrip l)) = false) :
    ∀ tcv catv : Option String, ∃ tc' cat',
      parseLinesFrom ⟨[], none, tcv, catv⟩ pre = some ⟨[], none, tc', cat'⟩ := by
  induction pre with
  | nil => exact fun tcv catv => ⟨tcv, catv, rfl⟩
  | cons l ls ih =>
    intro tcv catv
    obtain ⟨tc₁, cat₁, h1⟩ :=
      parseLine_no_phase tcv catv l (hpre l (List.mem_cons_self l ls))
    obtain ⟨tc', cat', h2⟩ :=
      ih (fun l' hl' => hpre l' (List.mem_cons_of_mem l hl')) tc₁ cat₁
    refine ⟨tc', cat', ?_⟩
    simp [parseLinesFrom, List.foldlM] at h2 ⊢
    rw [h1]
    exact h2

theorem parseLinesFrom_no_phase_indep (ls : List String) :
    ∀ tc₁ cat₁ tc₂ cat₂ : Option String,
      (parseLinesFrom ⟨[], none, tc₁, cat₁⟩ ls).map (fun st => st.result) =
      (parseLinesFrom ⟨[], none, tc₂, cat₂⟩ ls).map (fun st => st.result) := by
  induction ls with
  | nil => intro tc₁ cat₁ tc₂ cat₂; rfl
  | cons l ls ih =>
    intro tc₁ cat₁ tc₂ cat₂
    cases hcl : classifyLine (pyStrip l) with
    | phaseH ph =>
      have e₁ : parseLine ⟨[], none, tc₁, cat₁⟩ l
          = some ⟨setdefault [] ph [], some ph, none, none⟩ := by
        simp [parseLine, hcl]
      have e₂ : parseLine ⟨[], none, tc₂, cat₂⟩ l
          = some ⟨setdefault [] ph [], some ph, none, none⟩ := by
        simp [parseLine, hcl]
      simp [parseLinesFrom, List.foldlM, e₁, e₂]
    | classH tc =>
      have e₁ : parseLine ⟨[], none, tc₁, cat₁⟩ l
          = some ⟨[], none, some tc, none⟩ := by simp [parseLine, hcl, truthy]
      have e₂ : parseLine ⟨[], none, tc₂, cat₂⟩ l
          = some ⟨[], none, some tc, none⟩ := by simp [parseLine, hcl, truthy]
      simp [parseLinesFrom, List.foldlM, e₁, e₂]
    | categoryH cat =>
      have e₁ : parseLine ⟨[], none, tc₁, cat₁⟩ l
          = some ⟨[], none, tc₁, some cat⟩ := by simp [parseLine, hcl, truthy]
      have e₂ : parseLine ⟨[], none, tc₂, cat₂⟩ l
          = some ⟨[], none, tc₂, some cat⟩ := by simp [parseLine, hcl, truthy]
      simp only [parseLinesFrom, List.foldlM, e₁, e₂, Option.some_bind]
      exact ih tc₁ (some cat) tc₂ (some cat)
    | bullet =>
      have e₁ : parseLine ⟨[], none, tc₁, cat₁⟩ l
          = some ⟨[], none, tc₁, cat₁⟩ := by simp [parseLine, hcl, truthy]
      have e₂ : parseLine ⟨[], none, tc₂, cat₂⟩ l
          = some ⟨[], none, tc₂, cat₂⟩ := by simp [parseLine, hcl, truthy]
      simp only [parseLinesFrom, List.foldlM, e₁, e₂, Option.some_bind]
      exact ih tc₁ cat₁ tc₂ cat₂
    | other =>
      have e₁ : parseLine ⟨[], none, tc₁, cat₁⟩ l
          = some ⟨[], none, tc₁, cat₁⟩ := by simp [parseLine, hcl]
      have e₂ : parseLine ⟨[], none, tc₂, cat₂⟩ l
          = some ⟨[], none, tc₂, cat₂⟩ := by simp [parseLine, hcl]
      simp only [parseLinesFrom, List.foldlM, e₁, e₂, Option.some_bind]
      exact ih tc₁ cat₁ tc₂ cat₂

/-- Claim C5: a prefix of lines containing no phase (outer-group) heading
— so in particular any class headings, category markers and bullet items
in it are orphans — contributes nothing to the final index: parsing
`pre ++ rest` yields exactly the index of parsing `rest` alone. -/
theorem orphan_suppression (pre rest : List String)
    (hpre : ∀ l ∈ pre, kindIsPhase (classifyLine (pyStrip l)) = false) :
    parseLinesE (pre ++ rest) = parseLinesE rest := by
  obtain ⟨tc', cat', hfold⟩ := parseLinesFrom_no_phase pre hpre none none
  have happ : parseLinesFrom initSt (pre ++ rest)
      = parseLinesFrom ⟨[], none, tc', cat'⟩ rest := by
    unfold parseLinesFrom at hfold ⊢
    rw [List.foldlM_append]
    rw [show initSt = (⟨[], none, none, none⟩ : ParseSt) from rfl, hfold]
    rfl
  unfold parseLinesE
  rw [happ]
  exact parseLinesFrom_no_phase_indep rest tc' cat' none none

theorem orphan_suppression_witness :
    (∀ l ∈ ["=== Ranged ===", ";Weapons", "* [[Bow]]"],
      kindIsPhase (classifyLine (pyStrip l)) = false) ∧
    parseLinesE (["=== Ranged ===", ";Weapons", "* [[Bow]]"]
        ++ ["== Phase A ==", "=== Melee ===", ";Armor", "* [[Shield]]"])
      = parseLinesE ["== Phase A ==", "=== Melee ===", ";Armor", "* [[Shield]]"] :=
  ⟨by decide,
    orphan_suppression ["=== Ranged ===", ";Weapons", "* [[Bow]]"]
      ["== Phase A ==", "=== Melee ===", ";Armor", "* [[Shield]]"] (by decide)⟩

/-!
## Append-order preservation (claim C8)
-/

theorem parseLine_bullet_append (res : Index) (p c k n : String)
    (items : List String)
    (hpt : p.isEmpty = false) (hct : c.isEmpty = false) (hkt : k.isEmpty = false)
    (hl : lookup3 res p c k = some items)
    (l : String) (hcl : classifyLine (pyStrip l) = .bullet)
    (hex : extract_item_name (pyStrip l) = some n) (hn : n.isEmpty = false) :
    ∃ r, parseLine ⟨res, some p, some c, some k⟩ l
        = some ⟨r, some p, some c, some k⟩ ∧
      lookup3 r p c k = some (items ++ [n]) := by
  have hcm : ∃ cm, lookupA res p = some cm ∧
      ∃ m, lookupA cm c = some m ∧ lookupA m k = some items := by
    unfold lookup3 at hl
    cases h1 : lookupA res p with
    | none => rw [h1] at hl; simp at hl
    | some cm =>
      rw [h1] at hl
      simp only [Option.some_bind] at hl
      cases h2 : lookupA cm c with
      | none => rw [h2] at hl; simp at hl
      | some m =>
        rw [h2] at hl
        simp only [Option.some_bind] at hl
        exact ⟨cm, rfl, m, h2, hl⟩
  obtain ⟨cm, hcm1, m, hm1, hitems⟩ := hcm
  obtain ⟨m', hm', hmk', _⟩ :=
    updateAtM_spec (f := fun items => some (items ++ [n])) hitems rfl
  obtain ⟨cm', hcm', hcmk', _⟩ :=
    updateAtM_spec
      (f := fun c2 => updateAtM c2 k (fun items => some (items ++ [n])))
      hm1 hm'
  obtain ⟨r, hr, hrk, _⟩ :=
    updateAtM_spec
      (f := fun c1 => updateAtM c1 c
        (fun c2 => updateAtM c2 k (fun items => some (items ++ [n]))))
      hcm1 hcm'
  refine ⟨r, ?_, ?_⟩
  · simp [parseLine, hcl, truthy, hpt, hct, hkt, hex, hn, hr]
  · unfold lookup3
    rw [hrk]
    simp only [Option.some_bind]
    rw [hcmk']
    simp only [Option.some_bind]
    exact hmk'

/-- Claim C8: under an active (truthy) cursor triple
`phase → class → category` whose category list currently holds `items0`, a
run of `N` bullet lines, each carrying an extractable nonempty item name,
leaves the cursors unchanged and makes that category's list exactly
`items0 ++ names`: one appended entry per line, duplicates included, in
the original line order (never deduplicated or reordered). -/
theorem append_order_preservation (ls : List String) (names : List String)
    (res : Index) (p c k : String) (items0 : List String)
    (hpt : p.isEmpty = false) (hct : c.isEmpty = false) (hkt : k.isEmpty = false)
    (hl : lookup3 res p c k = some items0)
    (hbul : ls.map (fun l => (classifyLine (pyStrip l),
        extract_item_name (pyStrip l)))
      = names.map (fun n => (LineKind.bullet, some n)))
    (hnames : ∀ n ∈ names, n.isEmpty = false) :
    ∃ st', parseLinesFrom ⟨res, some p, some c, some k⟩ ls = some st' ∧
      lookup3 st'.result p c k = some (items0 ++ names) ∧
      names.length = ls.length := by
  induction ls generalizing res items0 names with
  | nil =>
    cases names with
    | nil =>
      exact ⟨⟨res, some p, some c, some k⟩, rfl, by simpa using hl, rfl⟩
    | cons n ns => simp at hbul
  | cons l ls ih =>
    cases names with
    | nil => simp at hbul
    | cons n ns =>
      simp only [List.map_cons, List.cons.injEq, Prod.mk.injEq] at hbul
      obtain ⟨⟨hcl, hex⟩, htail⟩ := hbul
      have hn : n.isEmpty = false := hnames n (List.mem_cons_self n ns)
      obtain ⟨r, hstep, hlook⟩ :=
        parseLine_bullet_append res p c k n items0 hpt hct hkt hl l hcl hex hn
      obtain ⟨st', hrest, hlook', hlen⟩ :=
        ih ns r (items0 ++ [n]) hlook htail
          (fun n' hn' => hnames n' (List.mem_cons_of_mem n hn'))
      refine ⟨st', ?_, ?_, ?_⟩
      · simp [parseLinesFrom, List.foldlM] at hrest ⊢
        rw [hstep]
        exact hrest
      · simpa [List.append_assoc] using hlook'
      · simp [hlen]

theorem append_order_preservation_witness :
    lookup3 [("P", [("C", [("W", [])])])] "P" "C" "W" = some [] ∧
    (["* \x7b\x7bitem|Sword\x7d\x7d", "* [[Bow]]", "* [[Bow]]"].map
        (fun l => (classifyLine (pyStrip l), extract_item_name (pyStrip l)))
      = ["Sword", "Bow", "Bow"].map (fun n => (LineKind.bullet, some n))) ∧
    (∃ st', parseLinesFrom
        ⟨[("P", [("C", [("W", [])])])], some "P", some "C", some "W"⟩
        ["* \x7b\x7bitem|Sword\x7d\x7d", "* [[Bow]]", "* [[Bow]]"] = some st' ∧
      lookup3 st'.result "P" "C" "W" = some ([] ++ ["Sword", "Bow", "Bow"]) ∧
      (["Sword", "Bow", "Bow"] : List String).length
        = (["* \x7b\x7bitem|Sword\x7d\x7d", "* [[Bow]]", "* [[Bow]]"] :
            List String).length) :=
  ⟨rfl, by decide,
    append_order_preservation
      ["* \x7b\x7bitem|Sword\x7d\x7d", "* [[Bow]]", "* [[Bow]]"]
      ["Sword", "Bow", "Bow"] [("P", [("C", [("W", [])])])]
      "P" "C" "W" [] rfl rfl rfl rfl (by decide) (by decide)⟩
